import Mathlib

/-!
Verification of the RustBridge Modbus-to-MQTT bridge core
(`src/config.rs`, `src/modbus/mod.rs`, `src/modbus/client.rs`,
`src/modbus/reader.rs`, `src/mqtt/mod.rs`).

Shallow embedding conventions:
- `u16` words are `Fin 65536`; wider machine integers are `Nat`/`Int` with
  explicit reductions modulo `2 ^ w` where reinterpretation happens.
- Rust `f64` values are modelled by `F64`: an exact rational for finite
  values plus the IEEE special values `+Inf`, `-Inf`, `NaN`.  Finite
  arithmetic is exact (no rounding is modelled); the special-value
  propagation rules of IEEE-754 multiplication and addition are modelled
  exactly.  None of the verified claims depends on rounding.
- Fallible Rust code returns `Except`; external I/O (sockets, serial
  ports, the Modbus wire) is supplied by oracle parameters.
-/

attribute [local semireducible] Rat.add Rat.mul Rat.inv Rat.sub

namespace RustBridge

/-- One Modbus register word (`u16` in the source). -/
abbrev UWord := Fin 65536

/-- Exact model of a Rust `f64` value: a finite rational or an IEEE
special value. -/
inductive F64 where
  | finite (q : ℚ)
  | posInf
  | negInf
  | nan
deriving DecidableEq

instance : OfNat F64 0 := ⟨F64.finite 0⟩

/-- IEEE-754 multiplication on the `F64` model (exact on finite values;
`NaN` absorbs; `0 × ∞ = NaN`; infinities follow the sign rule). -/
def F64.mul : F64 → F64 → F64
  | .nan, _ => .nan
  | _, .nan => .nan
  | .finite a, .finite b => .finite (a * b)
  | .finite a, .posInf => if a = 0 then .nan else if 0 < a then .posInf else .negInf
  | .finite a, .negInf => if a = 0 then .nan else if 0 < a then .negInf else .posInf
  | .posInf, .finite b => if b = 0 then .nan else if 0 < b then .posInf else .negInf
  | .negInf, .finite b => if b = 0 then .nan else if 0 < b then .negInf else .posInf
  | .posInf, .posInf => .posInf
  | .posInf, .negInf => .negInf
  | .negInf, .posInf => .negInf
  | .negInf, .negInf => .posInf

/-- IEEE-754 addition on the `F64` model (exact on finite values;
`NaN` absorbs; `∞ + (-∞) = NaN`). -/
def F64.add : F64 → F64 → F64
  | .nan, _ => .nan
  | _, .nan => .nan
  | .finite a, .finite b => .finite (a + b)
  | .finite _, .posInf => .posInf
  | .posInf, .finite _ => .posInf
  | .finite _, .negInf => .negInf
  | .negInf, .finite _ => .negInf
  | .posInf, .posInf => .posInf
  | .negInf, .negInf => .negInf
  | .posInf, .negInf => .nan
  | .negInf, .posInf => .nan

theorem F64.mul_finite_one (x : F64) : x.mul (.finite 1) = x := by
  cases x <;> simp [F64.mul]

theorem F64.add_finite_zero (x : F64) : x.add (.finite 0) = x := by
  cases x <;> simp [F64.add]

theorem F64.mul_comm (x y : F64) : x.mul y = y.mul x := by
  cases x <;> cases y <;> simp [F64.mul, Rat.mul_comm]

/-- Source `config.rs`: the `data_type` enum selecting how raw words decode. -/
inductive DataType where
  | U16
  | I16
  | U32
  | I32
  | F32
  | Bool
deriving DecidableEq

/-- Source `config.rs`: the `register_type` enum (`holding`, `input`, `coil`,
`discrete`). -/
inductive RegisterType where
  | Holding
  | Input
  | Coil
  | Discrete
deriving DecidableEq

/-- Source `config.rs` `RegisterConfig`: one configured register of a device. -/
structure RegisterConfig where
  name : String
  address : UWord
  register_type : RegisterType
  count : UWord
  data_type : DataType
  unit : Option String
  scale : Option F64
  offset : Option F64
deriving DecidableEq

/-- Rust `as i16` reinterpretation of a `u16` word. -/
def i16cast (w : UWord) : ℤ :=
  if w.val < 32768 then (w.val : ℤ) else (w.val : ℤ) - 65536

/-- Rust `as i32` reinterpretation of an unsigned 32-bit quantity. -/
def i32cast (n : ℕ) : ℤ :=
  if n % 2 ^ 32 < 2 ^ 31 then ((n % 2 ^ 32 : ℕ) : ℤ) else ((n % 2 ^ 32 : ℕ) : ℤ) - 2 ^ 32

/-- Source `reader.rs` subexpression `(raw[0] as u32) << 16 | raw[1] as u32`
(only used under the `raw.len() >= 2` guard, where `getD` equals plain
indexing). -/
def wordBits (raw : List UWord) : ℕ :=
  Nat.lor (Nat.shiftLeft (raw.getD 0 0).val 16) (raw.getD 1 0).val

/-- IEEE-754 binary32 interpretation of a 32-bit pattern
(Rust `f32::from_bits`), widened exactly to the `F64` model
(`f32 → f64` conversion is exact). -/
def f32_from_bits (bits : ℕ) : F64 :=
  let b : ℕ := bits % 2 ^ 32
  let e : ℕ := (b / 2 ^ 23) % 2 ^ 8
  let f : ℕ := b % 2 ^ 23
  let sign : ℚ := if b / 2 ^ 31 = 1 then -1 else 1
  if e = 255 then
    if f = 0 then (if b / 2 ^ 31 = 1 then .negInf else .posInf) else .nan
  else if e = 0 then
    .finite (sign * (f : ℚ) / 2 ^ 149)
  else
    .finite (sign * ((2 ^ 23 + f : ℕ) : ℚ) * ((2 : ℚ) ^ e) / 2 ^ 150)

/-- The `raw_value` local of `reader.rs` `convert_value`: the typed raw
value before scaling.  `raw.first().copied().unwrap_or(0)` is
`raw.head?.getD 0`; the two-word types are guarded by `raw.len() >= 2`
and fall back to `0.0`. -/
def raw_value_of (raw : List UWord) (dt : DataType) : F64 :=
  match dt with
  | .U16 => .finite ((raw.head?.getD 0).val : ℚ)
  | .I16 => .finite ((i16cast (raw.head?.getD 0) : ℤ) : ℚ)
  | .U32 => if 2 ≤ raw.length then .finite ((wordBits raw : ℕ) : ℚ) else .finite 0
  | .I32 => if 2 ≤ raw.length then .finite ((i32cast (wordBits raw) : ℤ) : ℚ) else .finite 0
  | .F32 => if 2 ≤ raw.length then f32_from_bits (wordBits raw) else .finite 0
  | .Bool => if (raw.head?.getD 0).val ≠ 0 then .finite 1 else .finite 0

/-- Source `reader.rs` `convert_value`: decode raw words per `data_type`, then
apply `raw_value * scale + offset` with `scale.unwrap_or(1.0)` and
`offset.unwrap_or(0.0)`. -/
def convert_value (raw : List UWord) (config : RegisterConfig) : F64 :=
  F64.add (F64.mul (raw_value_of raw config.data_type) (config.scale.getD (.finite 1)))
    (config.offset.getD (.finite 0))

/-- Number of raw words the decoding table of spec §4.2 requires for each
`data_type`. -/
def wordsRequired (dt : DataType) : ℕ :=
  match dt with
  | .U16 => 1
  | .I16 => 1
  | .U32 => 2
  | .I32 => 2
  | .F32 => 2
  | .Bool => 1

/-- Decoding table of spec §4.2, written from the words of the spec: `U16` is
`w[0]` as unsigned; `I16` is `w[0]` reinterpreted as signed 16-bit;
`U32` is `(w[0] << 16) | w[1]` as unsigned 32-bit; `I32` the same bits
reinterpreted signed; `F32` the same bits as IEEE-754 binary32; `Bool`
is `1.0` if `w[0] ≠ 0` else `0.0`. -/
def spec_raw_value (dt : DataType) (w : List UWord) : F64 :=
  match dt with
  | .U16 => .finite ((w.getD 0 0).val : ℚ)
  | .I16 => .finite ((i16cast (w.getD 0 0) : ℤ) : ℚ)
  | .U32 => .finite ((Nat.lor (Nat.shiftLeft (w.getD 0 0).val 16) (w.getD 1 0).val : ℕ) : ℚ)
  | .I32 => .finite ((i32cast (Nat.lor (Nat.shiftLeft (w.getD 0 0).val 16) (w.getD 1 0).val) : ℤ) : ℚ)
  | .F32 => f32_from_bits (Nat.lor (Nat.shiftLeft (w.getD 0 0).val 16) (w.getD 1 0).val)
  | .Bool => if (w.getD 0 0).val ≠ 0 then .finite 1 else .finite 0

theorem head_getD_eq_getD_zero (w : List UWord) : w.head?.getD 0 = w.getD 0 0 := by
  cases w <;> rfl

/-! ## Transport (`src/modbus/mod.rs`, `src/modbus/client.rs`) -/

/-- Source `config.rs` `TcpConnection`. -/
structure TcpConnection where
  host : String
  port : ℕ
  unit_id : ℕ
deriving DecidableEq

/-- Source `config.rs` `RtuConnection`. -/
structure RtuConnection where
  port : String
  baud_rate : ℕ
  data_bits : ℕ
  stop_bits : ℕ
  parity : String
  unit_id : ℕ
deriving DecidableEq

/-- Source `config.rs` `ConnectionConfig`. -/
inductive ConnectionConfig where
  | Tcp (t : TcpConnection)
  | Rtu (r : RtuConnection)
deriving DecidableEq

/-- Source `config.rs` `DeviceType`. -/
inductive DeviceType where
  | Tcp
  | Rtu
deriving DecidableEq

/-- Source `config.rs` `DeviceConfig`. -/
structure DeviceConfig where
  id : String
  name : String
  device_type : DeviceType
  connection : ConnectionConfig
  poll_interval_ms : ℕ
  registers : List RegisterConfig
deriving DecidableEq

/-- Source `tokio_serial::Parity`. -/
inductive Parity where
  | None
  | Even
  | Odd
deriving DecidableEq

/-- Source `tokio_serial::StopBits`. -/
inductive StopBits where
  | One
  | Two
deriving DecidableEq

/-- Source `tokio_serial::DataBits`. -/
inductive DataBits where
  | Five
  | Six
  | Seven
  | Eight
deriving DecidableEq

/-- Rust `str::to_lowercase`, modelled as a per-character lowercase map
(the configured parity strings are ASCII). -/
def to_lowercase (s : String) : String :=
  ⟨s.data.map Char.toLower⟩

/-- The parity `match` in `ModbusClient::new` (`mod.rs` lines 49-57):
lowercase the configured string, map the three recognized values, and
fall back to `Parity::None` with a warning. -/
def parseParity (s : String) : Parity :=
  let l := to_lowercase s
  if l = "none" then Parity.None
  else if l = "even" then Parity.Even
  else if l = "odd" then Parity.Odd
  else Parity.None

/-- The stop-bits `match` in `ModbusClient::new` (`mod.rs` lines 60-67):
recognized values 1 and 2, fallback `StopBits::One` with a warning. -/
def parseStopBits (n : ℕ) : StopBits :=
  if n = 1 then StopBits.One
  else if n = 2 then StopBits.Two
  else StopBits.One

/-- The data-bits `match` in `ModbusClient::new` (`mod.rs` lines 70-79):
recognized values 5..8, fallback `DataBits::Eight` with a warning. -/
def parseDataBits (n : ℕ) : DataBits :=
  if n = 5 then DataBits.Five
  else if n = 6 then DataBits.Six
  else if n = 7 then DataBits.Seven
  else if n = 8 then DataBits.Eight
  else DataBits.Eight

/-- The serial-port settings `ModbusClient::new` passes to
`tokio_serial::new(...).parity(...).stop_bits(...).data_bits(...)`. -/
structure SerialSettings where
  path : String
  baud : ℕ
  parity : Parity
  stop_bits : StopBits
  data_bits : DataBits
deriving DecidableEq

/-- Builder chain of `ModbusClient::new` (`mod.rs` lines 82-85). -/
def buildSerialSettings (rtu : RtuConnection) : SerialSettings :=
  { path := rtu.port
    baud := rtu.baud_rate
    parity := parseParity rtu.parity
    stop_bits := parseStopBits rtu.stop_bits
    data_bits := parseDataBits rtu.data_bits }

/-- A parsed socket endpoint (result of `"host:port".parse()`); its
internal structure is irrelevant to the claims. -/
abbrev SocketAddr := String

/-- Source `client.rs` `Context`: the tagged union over the two transport
variants, recorded with the parameters each `new` branch passes to the
external library (`tcp::connect_slave` / `rtu::attach_slave`). -/
inductive Context where
  | Tcp (addr : SocketAddr) (unit_id : ℕ)
  | Rtu (settings : SerialSettings) (unit_id : ℕ)
deriving DecidableEq

/-- Source `mod.rs` `ModbusClient`. -/
structure ModbusClient where
  device_id : String
  device_type : String
  context : Option Context
deriving DecidableEq

/-- Failure cases of `ModbusClient::new` (the three `with_context`
error paths). -/
inductive NewError where
  | invalidTcpAddress
  | connectFailed
  | serialOpenFailed
deriving DecidableEq

/-- Oracle for the external effects of `ModbusClient::new`:
`SocketAddr` parsing (std), TCP connect (tokio-modbus) and serial port
open (tokio-serial).  `Bool`/`Option` model success of the awaited I/O. -/
structure NetEnv where
  parseAddr : String → Option SocketAddr
  tcpConnect : SocketAddr → ℕ → Bool
  openSerial : SerialSettings → Bool

/-- Source `ModbusClient::new` (`mod.rs` lines 25-117): both the TCP and the
RTU arm produce `Some(context)`; every failure is an early `Err`. -/
def ModbusClient.new (env : NetEnv) (config : DeviceConfig) : Except NewError ModbusClient :=
  match config.connection with
  | .Tcp tcp =>
    match env.parseAddr (tcp.host ++ ":" ++ toString tcp.port) with
    | none => .error NewError.invalidTcpAddress
    | some addr =>
      if env.tcpConnect addr tcp.unit_id then
        .ok { device_id := config.id, device_type := "TCP"
              context := some (Context.Tcp addr tcp.unit_id) }
      else .error NewError.connectFailed
  | .Rtu rtu =>
    let settings := buildSerialSettings rtu
    if env.openSerial settings then
      .ok { device_id := config.id, device_type := "RTU"
            context := some (Context.Rtu settings rtu.unit_id) }
    else .error NewError.serialOpenFailed

/-- Source `client.rs` `ModbusError` (string payloads elided). -/
inductive ModbusError where
  | exception (code : ℕ)
  | transportErr
  | ioErr
  | serialErr
deriving DecidableEq

/-- Modbus protocol exception code 3 (illegal data value). -/
def illegalDataValue : ℕ := 3

/-- Error type of `ModbusClient` operations: either the
`"No connection available"` branch or a wrapped `ModbusError`
(`"Modbus error: {e}"`). -/
inductive ReadError where
  | noConnection
  | modbus (e : ModbusError)
deriving DecidableEq

/-- Oracle for the Modbus wire: what the `client.rs` `Context` methods
return for each request that is actually issued.  Word reads serve
holding/input registers, bit reads serve coils/discrete inputs. -/
structure Wire where
  readWords : RegisterType → UWord → UWord → Except ModbusError (List UWord)
  readBits : RegisterType → UWord → UWord → Except ModbusError (List Bool)
  writeSingle : UWord → UWord → Except ModbusError Unit
  writeMultiple : UWord → List UWord → Except ModbusError Unit
  writeCoil : UWord → Bool → Except ModbusError Unit

/-- Source `ModbusClient::read_registers` (`mod.rs` lines 120-165): fail with
`"No connection available"` when `context` is `None`; otherwise issue
the read matching `register_type` with the configured `address` and
`count` (no validation of `count`), mapping coil/discrete bits to
`0`/`1` words.  Returns the result together with the client, which the
source mutates only through `context.as_mut()` (never reassigning it). -/
def ModbusClient.read_registers (c : ModbusClient) (wire : Wire)
    (register : RegisterConfig) : Except ReadError (List UWord) × ModbusClient :=
  match c.context with
  | none => (.error ReadError.noConnection, c)
  | some _ =>
    let r : Except ReadError (List UWord) :=
      match register.register_type with
      | .Holding =>
        (wire.readWords .Holding register.address register.count).mapError ReadError.modbus
      | .Input =>
        (wire.readWords .Input register.address register.count).mapError ReadError.modbus
      | .Coil =>
        ((wire.readBits .Coil register.address register.count).map
          (List.map fun b => if b then (1 : UWord) else 0)).mapError ReadError.modbus
      | .Discrete =>
        ((wire.readBits .Discrete register.address register.count).map
          (List.map fun b => if b then (1 : UWord) else 0)).mapError ReadError.modbus
    (r, c)

/-- Source `ModbusClient::write_register` (`mod.rs` lines 169-185). -/
def ModbusClient.write_register (c : ModbusClient) (wire : Wire)
    (address value : UWord) : Except ReadError Unit × ModbusClient :=
  match c.context with
  | none => (.error ReadError.noConnection, c)
  | some _ => ((wire.writeSingle address value).mapError ReadError.modbus, c)

/-- Source `ModbusClient::write_registers` (`mod.rs` lines 189-208). -/
def ModbusClient.write_registers (c : ModbusClient) (wire : Wire)
    (address : UWord) (values : List UWord) : Except ReadError Unit × ModbusClient :=
  match c.context with
  | none => (.error ReadError.noConnection, c)
  | some _ => ((wire.writeMultiple address values).mapError ReadError.modbus, c)

/-- Source `ModbusClient::write_coil` (`mod.rs` lines 212-228). -/
def ModbusClient.write_coil (c : ModbusClient) (wire : Wire)
    (address : UWord) (value : Bool) : Except ReadError Unit × ModbusClient :=
  match c.context with
  | none => (.error ReadError.noConnection, c)
  | some _ => ((wire.writeCoil address value).mapError ReadError.modbus, c)

/-- Source `ModbusClient::is_connected` (`mod.rs` lines 232-234). -/
def ModbusClient.is_connected (c : ModbusClient) : Bool :=
  c.context.isSome

/-! ## Device poller (`src/modbus/reader.rs`) -/

/-- Source `reader.rs` `RegisterValue` (timestamps are abstract clock readings,
modelled as naturals). -/
structure RegisterValue where
  name : String
  raw : List UWord
  value : F64
  unit : Option String
  timestamp : ℕ
deriving DecidableEq

/-- The `RegisterUpdate` record broadcast to subscribers (declared in
the `api` module of the repository; its payload per spec §3 is the
`LatestValue` plus `device_id`). -/
structure RegisterUpdate where
  device_id : String
  register_name : String
  value : F64
  raw : List UWord
  unit : Option String
  timestamp : ℕ
deriving DecidableEq

/-- Source `reader.rs` `RegisterStore` semantics: the two-level map
`device_id → register_name → RegisterValue`, modelled extensionally. -/
def Store := String → String → Option RegisterValue

/-- Entry-or-insert followed by inner insert
(`store.entry(device_id).or_insert_with(HashMap::new)` then
`device_map.insert(register.name, value)`): a point update of the
two-level map. -/
def Store.insert (st : Store) (d r : String) (v : RegisterValue) : Store :=
  fun d2 r2 => if d2 = d ∧ r2 = r then some v else st d2 r2

/-- The update payload built from the stored `RegisterValue`
(same fields plus the device id). -/
def updateOf (d : String) (rv : RegisterValue) : RegisterUpdate :=
  { device_id := d, register_name := rv.name, value := rv.value
    raw := rv.raw, unit := rv.unit, timestamp := rv.timestamp }

/-- The `LatestValue` equivalent of the payload of an update. -/
def rvOf (u : RegisterUpdate) : RegisterValue :=
  { name := u.register_name, raw := u.raw, value := u.value
    unit := u.unit, timestamp := u.timestamp }

/-- Observable actions of one poll tick, in program order. -/
inductive Event where
  | storeWrite (device register : String) (v : RegisterValue)
  | emit (u : RegisterUpdate)
  | readError (register : String) (e : ReadError)
deriving DecidableEq

/-- Body of the per-register loop of `start_polling` (`reader.rs` lines
43-73): on a successful read, decode with `convert_value`, build the
`RegisterValue`, write it into the Store, and then emit the equivalent
`RegisterUpdate`; on a failed read, record the error and leave the
Store unchanged.

Modelled from the spec: the bus emission after the Store write (spec
§4.2, Emit paragraph) — `reader.rs` as given only performs the Store write, and
the `RegisterUpdate` producer feeding the broadcast bus lives outside
`src/`.  The `read` oracle stands for `client.read_registers(register)`. -/
def pollStep (d : String) (read : RegisterConfig → Except ReadError (List UWord))
    (register : RegisterConfig) (st : Store) (now : ℕ) : Store × List Event :=
  match read register with
  | .ok raw_values =>
    let value := convert_value raw_values register
    let rv : RegisterValue :=
      { name := register.name, raw := raw_values, value := value
        unit := register.unit, timestamp := now }
    (st.insert d register.name rv,
      [Event.storeWrite d register.name rv, Event.emit (updateOf d rv)])
  | .error e => (st, [Event.readError register.name e])

/-- One full tick of `start_polling`: iterate the registers of the device
in configured order, threading the Store and appending the events of
each register. -/
def pollTick (d : String) (read : RegisterConfig → Except ReadError (List UWord))
    (regs : List RegisterConfig) (st : Store) (now : ℕ) : Store × List Event :=
  match regs with
  | [] => (st, [])
  | register :: rest =>
    let s1 := pollStep d read register st now
    let s2 := pollTick d read rest s1.1 now
    (s2.1, s1.2 ++ s2.2)

/-- Store contents reconstructed from a prefix of tick events: the
Store state a subscriber can observe at that point of the tick. -/
def replay (st : Store) (evs : List Event) : Store :=
  match evs with
  | [] => st
  | Event.storeWrite d r v :: rest => replay (st.insert d r v) rest
  | _ :: rest => replay st rest

/-! ## MQTT publisher (`src/mqtt/mod.rs`) -/

/-- Source `rumqttc::QoS`. -/
inductive QoS where
  | AtMostOnce
  | AtLeastOnce
  | ExactlyOnce
deriving DecidableEq

/-- Payload of a published MQTT message: the JSON value document of
`publish_update` or the literal status string of `publish_status`. -/
inductive Payload where
  | json (value : F64) (raw : List UWord) (unit : Option String) (timestamp : ℕ)
  | status (s : String)
deriving DecidableEq

/-- The arguments `MqttPublisher` hands to `AsyncClient::publish`. -/
structure MqttMessage where
  topic : String
  qos : QoS
  retain : Bool
  payload : Payload
deriving DecidableEq

/-- Source `mqtt/mod.rs` `MqttPublisher` (the async client handle and the
connection flag are external; `topic_prefix` is `topicBase` here). -/
structure MqttPublisher where
  topicBase : String
  qos : QoS
  retain : Bool

/-- Source `MqttPublisher::publish_update` (`mqtt/mod.rs` lines 118-142):
topic `{prefix}/{device_id}/{register_name}`, the configured QoS, the
configured retain flag, and the JSON payload fields. -/
def MqttPublisher.publish_update (p : MqttPublisher) (update : RegisterUpdate) : MqttMessage :=
  { topic := p.topicBase ++ "/" ++ update.device_id ++ "/" ++ update.register_name
    qos := p.qos
    retain := p.retain
    payload := Payload.json update.value update.raw update.unit update.timestamp }

/-- Source `MqttPublisher::publish_status` (`mqtt/mod.rs` lines 146-158):
topic `{prefix}/{device_id}/status`, the configured QoS, retain
hard-coded `true` ("Always retain status"), payload `"online"` or
`"offline"`. -/
def MqttPublisher.publish_status (p : MqttPublisher) (device_id : String)
    (online : Bool) : MqttMessage :=
  { topic := p.topicBase ++ "/" ++ device_id ++ "/status"
    qos := p.qos
    retain := true
    payload := Payload.status (if online then "online" else "offline") }

/-! ## Helper lemmas -/

theorem raw_value_of_take (w : List UWord) (dt : DataType) :
    raw_value_of (w.take (wordsRequired dt)) dt = raw_value_of w dt := by
  cases dt <;> rcases w with _ | ⟨a, _ | ⟨b, t⟩⟩ <;>
    simp [raw_value_of, wordsRequired, wordBits, List.getD]

/-- A register configuration with the decode-relevant fields of `cfg`
and the given scale/offset options. -/
def withScaleOffset (cfg : RegisterConfig) (s o : Option F64) : RegisterConfig :=
  { name := cfg.name, address := cfg.address, register_type := cfg.register_type
    count := cfg.count, data_type := cfg.data_type, unit := cfg.unit
    scale := s, offset := o }

/-! ## Claims -/

/-- Claim C1.  For every raw-word slice with at least the words the
declared `data_type` requires, `convert_value` with absent scale/offset
computes exactly the spec §4.2 decoding table (`spec_raw_value`); in
particular `I16` on `[0xFFFF]` gives `-1.0`, `I32` on
`[0xFFFF, 0xFFFF]` gives `-1.0`, and with `scale = 1.0`,
`offset = 0.0`, `U16` decoding returns `words[0]`. -/
theorem claim_C1_decoding_table :
    (∀ (w : List UWord) (cfg : RegisterConfig), cfg.scale = none → cfg.offset = none →
      wordsRequired cfg.data_type ≤ w.length →
      convert_value w cfg = spec_raw_value cfg.data_type w)
    ∧ (∀ cfg : RegisterConfig, cfg.data_type = DataType.I16 → cfg.scale = none →
        cfg.offset = none → convert_value [65535] cfg = F64.finite (-1))
    ∧ (∀ cfg : RegisterConfig, cfg.data_type = DataType.I32 → cfg.scale = none →
        cfg.offset = none → convert_value [65535, 65535] cfg = F64.finite (-1))
    ∧ (∀ (w0 : UWord) (rest : List UWord) (cfg : RegisterConfig),
        cfg.data_type = DataType.U16 → cfg.scale = some (F64.finite 1) →
        cfg.offset = some (F64.finite 0) →
        convert_value (w0 :: rest) cfg = F64.finite (w0.val : ℚ)) := by
  refine ⟨?_, ?_, ?_, ?_⟩
  · intro w cfg hs ho hlen
    obtain ⟨n, a, rt, cnt, dt, u, s, o⟩ := cfg
    simp only at hs ho hlen
    subst hs ho
    simp only [convert_value, Option.getD, F64.mul_finite_one, F64.add_finite_zero]
    cases dt <;>
      simp_all [raw_value_of, spec_raw_value, wordBits, head_getD_eq_getD_zero, wordsRequired]
  · intro cfg hdt hs ho
    simp only [convert_value]
    rw [hdt, hs, ho]
    decide
  · intro cfg hdt hs ho
    simp only [convert_value]
    rw [hdt, hs, ho]
    decide
  · intro w0 rest cfg hdt hs ho
    obtain ⟨n, a, rt, cnt, dt, u, s, o⟩ := cfg
    simp only at hdt hs ho
    subst hdt hs ho
    simp only [convert_value, raw_value_of, Option.getD, List.head?_cons]
    simp [F64.mul, F64.add]

/-- Concrete instance of claim C1 at a two-word `U32` read. -/
def cfgC1W : RegisterConfig :=
  { name := "r", address := 0, register_type := RegisterType.Holding, count := 2
    data_type := DataType.U32, unit := none, scale := none, offset := none }

theorem claim_C1_witness :
    (cfgC1W.scale = none ∧ cfgC1W.offset = none
      ∧ wordsRequired cfgC1W.data_type ≤ ([1, 2] : List UWord).length)
    ∧ convert_value [1, 2] cfgC1W = spec_raw_value cfgC1W.data_type [1, 2] :=
  ⟨⟨rfl, rfl, by decide⟩, claim_C1_decoding_table.1 [1, 2] cfgC1W rfl rfl (by decide)⟩

/-- Claim C2.  When the raw slice has fewer words than the declared
`data_type` requires, `convert_value` proceeds with `raw_value = 0.0`
(so the result is `0.0 × scale + offset`, which is `0.0` under the
default scale and offset), the decode is total, and the poll step still
updates the Store with the resulting value. -/
theorem claim_C2_insufficient_words (raw : List UWord) (cfg : RegisterConfig)
    (h : raw.length < wordsRequired cfg.data_type) :
    convert_value raw cfg
        = F64.add (F64.mul (F64.finite 0) (cfg.scale.getD (F64.finite 1)))
            (cfg.offset.getD (F64.finite 0))
    ∧ (cfg.scale = none → cfg.offset = none → convert_value raw cfg = F64.finite 0)
    ∧ ∀ (d : String) (st : Store) (now : ℕ),
        (pollStep d (fun _ => Except.ok raw) cfg st now).1 d cfg.name
          = some { name := cfg.name, raw := raw, value := convert_value raw cfg
                   unit := cfg.unit, timestamp := now } := by
  have hraw : raw_value_of raw cfg.data_type = F64.finite 0 := by
    rcases hdt : cfg.data_type <;> rw [hdt] at h <;>
      simp only [wordsRequired] at h
    all_goals
      first
      | · have hnil : raw = [] := List.length_eq_zero.mp (Nat.lt_one_iff.mp h)
          subst hnil
          decide
      | · have hlt : ¬ 2 ≤ raw.length := by omega
          simp [raw_value_of, hlt]
  refine ⟨?_, ?_, ?_⟩
  · simp [convert_value, hraw]
  · intro hs ho
    simp [convert_value, hraw, hs, ho, F64.mul, F64.add]
  · intro d st now
    simp [pollStep, Store.insert]

/-- Concrete instance of claim C2: an `F32` register handed a single
word. -/
def cfgC2W : RegisterConfig :=
  { name := "r", address := 0, register_type := RegisterType.Holding, count := 2
    data_type := DataType.F32, unit := none, scale := none, offset := none }

theorem claim_C2_witness :
    ([(5 : UWord)].length < wordsRequired cfgC2W.data_type)
    ∧ (cfgC2W.scale = none → cfgC2W.offset = none →
        convert_value [5] cfgC2W = F64.finite 0) :=
  ⟨by decide, (claim_C2_insufficient_words [5] cfgC2W (by decide)).2.1⟩

/-- Claim C3.  The scaling law: decoding with `scale = s, offset = o`
equals `s × (decode with no scale/offset) + o`, and the absent options
default to `1.0` and `0.0`. -/
theorem claim_C3_scaling_law (w : List UWord) (cfg : RegisterConfig) (s o : F64) :
    convert_value w (withScaleOffset cfg (some s) (some o))
        = F64.add (F64.mul s (convert_value w (withScaleOffset cfg none none))) o
    ∧ convert_value w (withScaleOffset cfg none none)
        = convert_value w (withScaleOffset cfg (some (F64.finite 1)) (some (F64.finite 0))) := by
  constructor
  · simp only [convert_value, withScaleOffset, Option.getD,
      F64.mul_finite_one, F64.add_finite_zero]
    rw [F64.mul_comm]
  · simp only [convert_value, withScaleOffset, Option.getD]

/-- Claim C9.  `convert_value` is total on every slice and
configuration (it is a Lean function into `F64`), and words beyond
those required by the declared `data_type` are ignored: the result only
depends on the guarded prefix accesses. -/
theorem claim_C9_extra_words_ignored (w : List UWord) (cfg : RegisterConfig) :
    convert_value w cfg = convert_value (w.take (wordsRequired cfg.data_type)) cfg := by
  simp only [convert_value, raw_value_of_take]

/-- A register configured with `count = 0` (spec §4.1 requires such a
read to be rejected before the wire). -/
def cfgC4W : RegisterConfig :=
  { name := "z", address := 10, register_type := RegisterType.Holding, count := 0
    data_type := DataType.U16, unit := none, scale := none, offset := none }

/-- Endpoint fixture for the claim C4 client. -/
def addrC4W : SocketAddr := "h:502"

/-- A connected TCP client. -/
def clientC4W : ModbusClient :=
  { device_id := "d", device_type := "TCP", context := some (Context.Tcp addrC4W 1) }

/-- A wire that accepts every request (a permissive server). -/
def wireAccept : Wire :=
  { readWords := fun _ _ _ => Except.ok []
    readBits := fun _ _ _ => Except.ok []
    writeSingle := fun _ _ => Except.ok ()
    writeMultiple := fun _ _ => Except.ok ()
    writeCoil := fun _ _ => Except.ok () }

/-- A wire whose server answers every read with Modbus exception 3
(illegal data value). -/
def wireReject : Wire :=
  { readWords := fun _ _ _ => Except.error (ModbusError.exception illegalDataValue)
    readBits := fun _ _ _ => Except.error (ModbusError.exception illegalDataValue)
    writeSingle := fun _ _ => Except.ok ()
    writeMultiple := fun _ _ => Except.ok ()
    writeCoil := fun _ _ => Except.ok () }

/-- Claim C4 evaluation.  `read_registers` performs no client-side
validation of `count`: a `count = 0` read on a connected client is
forwarded to the wire unchanged, so its outcome is exactly whatever
the wire returns — it even **succeeds** against a permissive server,
and any illegal-data-value `Exception` can only be the reply of the server,
not a pre-wire rejection. -/
theorem claim_C4_count_zero_reaches_wire :
    (clientC4W.read_registers wireAccept cfgC4W).1 = Except.ok []
    ∧ (clientC4W.read_registers wireReject cfgC4W).1
        = Except.error (ReadError.modbus (ModbusError.exception illegalDataValue)) :=
  ⟨rfl, rfl⟩

/-- Claim C7.  Value messages are published with the configured retain
flag; status messages are published with retain hard-coded to `true`,
for every publisher state, device and liveness value. -/
theorem claim_C7_retain_flags (p : MqttPublisher) (u : RegisterUpdate)
    (d : String) (online : Bool) :
    (p.publish_update u).retain = p.retain
    ∧ (p.publish_status d online).retain = true :=
  ⟨rfl, rfl⟩

/-- Claim C8.  Parity, stop-bit and data-bit values outside the
recognized sets map to the safe defaults `None` / `1` / `8`; recognized
values map to their corresponding serial settings; and RTU transport
construction still succeeds with the defaulted values whenever the
serial port opens (no abort on unrecognized values). -/
theorem claim_C8_serial_defaults (p : String) (sb db : ℕ) :
    (to_lowercase p ≠ "none" → to_lowercase p ≠ "even" → to_lowercase p ≠ "odd" →
      parseParity p = Parity.None)
    ∧ (to_lowercase p = "none" → parseParity p = Parity.None)
    ∧ (to_lowercase p = "even" → parseParity p = Parity.Even)
    ∧ (to_lowercase p = "odd" → parseParity p = Parity.Odd)
    ∧ (sb ≠ 1 → sb ≠ 2 → parseStopBits sb = StopBits.One)
    ∧ parseStopBits 1 = StopBits.One
    ∧ parseStopBits 2 = StopBits.Two
    ∧ (db ≠ 5 → db ≠ 6 → db ≠ 7 → db ≠ 8 → parseDataBits db = DataBits.Eight)
    ∧ parseDataBits 5 = DataBits.Five
    ∧ parseDataBits 6 = DataBits.Six
    ∧ parseDataBits 7 = DataBits.Seven
    ∧ parseDataBits 8 = DataBits.Eight
    ∧ ∀ (env : NetEnv) (config : DeviceConfig) (rtu : RtuConnection),
        config.connection = ConnectionConfig.Rtu rtu →
        env.openSerial (buildSerialSettings rtu) = true →
        ModbusClient.new env config
          = Except.ok { device_id := config.id, device_type := "RTU"
                        context := some (Context.Rtu (buildSerialSettings rtu) rtu.unit_id) } := by
  refine ⟨?_, ?_, ?_, ?_, ?_, rfl, rfl, ?_, rfl, rfl, rfl, rfl, ?_⟩
  · intro h1 h2 h3
    simp [parseParity, h1, h2, h3]
  · intro h
    simp [parseParity, h]
  · intro h
    simp [parseParity, h]
  · intro h
    simp [parseParity, h]
  · intro h1 h2
    simp [parseStopBits, h1, h2]
  · intro h1 h2 h3 h4
    simp [parseDataBits, h1, h2, h3, h4]
  · intro env config rtu hconn hopen
    simp [ModbusClient.new, hconn, hopen]

/-- RTU settings with every serial parameter outside the recognized
sets. -/
def rtuC8W : RtuConnection :=
  { port := "/dev/ttyUSB0", baud_rate := 9600, data_bits := 9, stop_bits := 3
    parity := "Invalid", unit_id := 1 }

/-- Device configuration around `rtuC8W`. -/
def devC8W : DeviceConfig :=
  { id := "d1", name := "n", device_type := DeviceType.Rtu
    connection := ConnectionConfig.Rtu rtuC8W, poll_interval_ms := 100, registers := [] }

/-- Environment whose serial port always opens. -/
def envC8W : NetEnv :=
  { parseAddr := fun _ => none, tcpConnect := fun _ _ => false
    openSerial := fun _ => true }

theorem claim_C8_witness :
    parseParity rtuC8W.parity = Parity.None
    ∧ parseStopBits rtuC8W.stop_bits = StopBits.One
    ∧ parseDataBits rtuC8W.data_bits = DataBits.Eight
    ∧ ModbusClient.new envC8W devC8W
        = Except.ok { device_id := "d1", device_type := "RTU"
                      context := some (Context.Rtu (buildSerialSettings rtuC8W) 1) } := by
  obtain ⟨h1, _, _, _, h5, _, _, h8, _, _, _, _, h13⟩ :=
    claim_C8_serial_defaults rtuC8W.parity rtuC8W.stop_bits rtuC8W.data_bits
  exact ⟨h1 (by decide) (by decide) (by decide), h5 (by decide) (by decide),
    h8 (by decide) (by decide) (by decide) (by decide),
    h13 envC8W devC8W rtuC8W rfl rfl⟩

theorem read_registers_result (c : ModbusClient) (hc : c.context.isSome = true)
    (wire : Wire) (reg : RegisterConfig) :
    (c.read_registers wire reg).1 ≠ Except.error ReadError.noConnection
    ∧ (c.read_registers wire reg).2 = c := by
  obtain ⟨ctx, hctx⟩ := Option.isSome_iff_exists.mp hc
  refine ⟨?_, by simp [ModbusClient.read_registers, hctx]⟩
  simp only [ModbusClient.read_registers, hctx]
  cases reg.register_type
  · rcases hw : wire.readWords RegisterType.Holding reg.address reg.count with e | v <;>
      simp [hw, Except.mapError]
  · rcases hw : wire.readWords RegisterType.Input reg.address reg.count with e | v <;>
      simp [hw, Except.mapError]
  · rcases hw : wire.readBits RegisterType.Coil reg.address reg.count with e | v <;>
      simp [hw, Except.mapError, Except.map]
  · rcases hw : wire.readBits RegisterType.Discrete reg.address reg.count with e | v <;>
      simp [hw, Except.mapError, Except.map]

theorem write_ops_result (c : ModbusClient) (hc : c.context.isSome = true) (wire : Wire) :
    (∀ a v, (c.write_register wire a v).1 ≠ Except.error ReadError.noConnection
      ∧ (c.write_register wire a v).2 = c)
    ∧ (∀ a vs, (c.write_registers wire a vs).1 ≠ Except.error ReadError.noConnection
      ∧ (c.write_registers wire a vs).2 = c)
    ∧ (∀ a b, (c.write_coil wire a b).1 ≠ Except.error ReadError.noConnection
      ∧ (c.write_coil wire a b).2 = c) := by
  obtain ⟨ctx, hctx⟩ := Option.isSome_iff_exists.mp hc
  refine ⟨fun a v => ⟨?_, by simp [ModbusClient.write_register, hctx]⟩,
    fun a vs => ⟨?_, by simp [ModbusClient.write_registers, hctx]⟩,
    fun a b => ⟨?_, by simp [ModbusClient.write_coil, hctx]⟩⟩
  · simp only [ModbusClient.write_register, hctx]
    rcases hw : wire.writeSingle a v with e | x <;> simp [hw, Except.mapError]
  · simp only [ModbusClient.write_registers, hctx]
    rcases hw : wire.writeMultiple a vs with e | x <;> simp [hw, Except.mapError]
  · simp only [ModbusClient.write_coil, hctx]
    rcases hw : wire.writeCoil a b with e | x <;> simp [hw, Except.mapError]

/-- Claim C10.  Every `ModbusClient` successfully returned by
`ModbusClient::new` carries `context = Some(..)`, so `is_connected`
answers `true`, the `"No connection available"` branch of
`read_registers` and of every write operation is unreachable for it,
and no operation changes the context. -/
theorem claim_C10_context_always_some (env : NetEnv) (config : DeviceConfig)
    (c : ModbusClient) (h : ModbusClient.new env config = Except.ok c) :
    c.context.isSome = true
    ∧ c.is_connected = true
    ∧ (∀ (wire : Wire) (reg : RegisterConfig),
        (c.read_registers wire reg).1 ≠ Except.error ReadError.noConnection
        ∧ (c.read_registers wire reg).2 = c)
    ∧ (∀ (wire : Wire) (a v : UWord),
        (c.write_register wire a v).1 ≠ Except.error ReadError.noConnection
        ∧ (c.write_register wire a v).2 = c)
    ∧ (∀ (wire : Wire) (a : UWord) (vs : List UWord),
        (c.write_registers wire a vs).1 ≠ Except.error ReadError.noConnection
        ∧ (c.write_registers wire a vs).2 = c)
    ∧ (∀ (wire : Wire) (a : UWord) (b : Bool),
        (c.write_coil wire a b).1 ≠ Except.error ReadError.noConnection
        ∧ (c.write_coil wire a b).2 = c) := by
  have hc : c.context.isSome = true := by
    cases hcn : config.connection with
    | Tcp t =>
      simp only [ModbusClient.new, hcn] at h
      cases hpa : env.parseAddr (t.host ++ ":" ++ toString t.port) with
      | none =>
        simp only [hpa] at h
        exact Except.noConfusion h
      | some addr =>
        simp only [hpa] at h
        by_cases hcon : env.tcpConnect addr t.unit_id
        · rw [if_pos hcon] at h
          simp only [Except.ok.injEq] at h
          subst h
          rfl
        · rw [if_neg hcon] at h
          exact Except.noConfusion h
    | Rtu r =>
      simp only [ModbusClient.new, hcn] at h
      by_cases hop : env.openSerial (buildSerialSettings r)
      · rw [if_pos hop] at h
        simp only [Except.ok.injEq] at h
        subst h
        rfl
      · rw [if_neg hop] at h
        exact Except.noConfusion h
  refine ⟨hc, hc, fun wire reg => read_registers_result c hc wire reg, ?_, ?_, ?_⟩
  · intro wire a v
    exact (write_ops_result c hc wire).1 a v
  · intro wire a vs
    exact (write_ops_result c hc wire).2.1 a vs
  · intro wire a b
    exact (write_ops_result c hc wire).2.2 a b

/-- Environment whose TCP connects always succeed. -/
def envC10W : NetEnv :=
  { parseAddr := fun s => some s, tcpConnect := fun _ _ => true
    openSerial := fun _ => false }

/-- A TCP device configuration. -/
def devC10W : DeviceConfig :=
  { id := "d2", name := "n2", device_type := DeviceType.Tcp
    connection := ConnectionConfig.Tcp { host := "10.0.0.1", port := 502, unit_id := 1 }
    poll_interval_ms := 100, registers := [] }

/-- Endpoint fixture: the parsed address of `devC10W`. -/
def addrC10W : SocketAddr := "10.0.0.1:502"

/-- The client `ModbusClient.new envC10W devC10W` returns. -/
def clientC10W : ModbusClient :=
  { device_id := "d2", device_type := "TCP"
    context := some (Context.Tcp addrC10W 1) }

theorem claim_C10_witness :
    ModbusClient.new envC10W devC10W = Except.ok clientC10W
    ∧ clientC10W.context.isSome = true
    ∧ clientC10W.is_connected = true :=
  ⟨rfl, (claim_C10_context_always_some envC10W devC10W clientC10W rfl).1,
    (claim_C10_context_always_some envC10W devC10W clientC10W rfl).2.1⟩

/-- Claim C5.  In every poll tick, each broadcast emission is
immediately preceded by the completed Store write of the same update
(same device, register and payload), and the Store state visible at the
moment of emission already contains that value — so a subscriber
observing the update can read at least that value from the Store. -/
theorem claim_C5_store_write_before_emit (d : String)
    (read : RegisterConfig → Except ReadError (List UWord))
    (regs : List RegisterConfig) (st : Store) (now : ℕ) (i : ℕ) (u : RegisterUpdate)
    (h : (pollTick d read regs st now).2[i]? = some (Event.emit u)) :
    0 < i
    ∧ (pollTick d read regs st now).2[i - 1]?
        = some (Event.storeWrite u.device_id u.register_name (rvOf u))
    ∧ replay st ((pollTick d read regs st now).2.take (i + 1)) u.device_id u.register_name
        = some (rvOf u)
    ∧ u.device_id = d := by
  induction regs generalizing st i with
  | nil => simp [pollTick] at h
  | cons reg rest ih =>
    cases hr : read reg with
    | error e =>
      simp only [pollTick, pollStep, hr, List.cons_append, List.nil_append] at h ⊢
      cases i with
      | zero => simp at h
      | succ j =>
        rw [List.getElem?_cons_succ] at h
        obtain ⟨hj, hprev, hrep, hdev⟩ := ih st j h
        obtain ⟨k, rfl⟩ : ∃ k, j = k + 1 := ⟨j - 1, by omega⟩
        refine ⟨Nat.succ_pos _, ?_, ?_, hdev⟩
        · simpa using hprev
        · rw [List.take_succ_cons]
          simpa [replay] using hrep
    | ok raw =>
      simp only [pollTick, pollStep, hr, List.cons_append, List.nil_append] at h ⊢
      cases i with
      | zero => simp at h
      | succ j =>
        cases j with
        | zero =>
          rw [List.getElem?_cons_succ, List.getElem?_cons_zero] at h
          have hu := (Option.some.injEq _ _).mp h
          have hu2 : u = updateOf d
              { name := reg.name, raw := raw, value := convert_value raw reg
                unit := reg.unit, timestamp := now } := by
            cases hu
            rfl
          subst hu2
          refine ⟨Nat.one_pos, ?_, ?_, rfl⟩
          · rfl
          · simp [List.take_succ_cons, replay, Store.insert, updateOf, rvOf]
        | succ k =>
          rw [List.getElem?_cons_succ, List.getElem?_cons_succ] at h
          obtain ⟨hk, hprev, hrep, hdev⟩ := ih _ k h
          obtain ⟨m, rfl⟩ : ∃ m, k = m + 1 := ⟨k - 1, by omega⟩
          refine ⟨Nat.succ_pos _, ?_, ?_, hdev⟩
          · simpa using hprev
          · rw [List.take_succ_cons, List.take_succ_cons]
            simpa [replay] using hrep

/-- Store fixture: the initially empty store. -/
def storeEmptyW : Store := fun _ _ => none

/-- Device-id fixture for the poller witnesses. -/
def deviceW : String := "dev"

/-- Register fixture for the claim C5 witness. -/
def cfgC5W : RegisterConfig :=
  { name := "t1", address := 0, register_type := RegisterType.Holding, count := 1
    data_type := DataType.U16, unit := none, scale := none, offset := none }

/-- Read oracle fixture for the claim C5 witness. -/
def readC5W : RegisterConfig → Except ReadError (List UWord) :=
  fun _ => Except.ok [7]

/-- Update fixture for the claim C5 witness. -/
def updC5W : RegisterUpdate :=
  { device_id := "dev", register_name := "t1", value := F64.finite 7
    raw := [7], unit := none, timestamp := 3 }

theorem claim_C5_witness :
    ((pollTick deviceW readC5W [cfgC5W] storeEmptyW 3).2[1]? = some (Event.emit updC5W))
    ∧ (0 < 1
      ∧ (pollTick deviceW readC5W [cfgC5W] storeEmptyW 3).2[0]?
          = some (Event.storeWrite updC5W.device_id updC5W.register_name (rvOf updC5W))
      ∧ replay storeEmptyW ((pollTick deviceW readC5W [cfgC5W] storeEmptyW 3).2.take 2)
          updC5W.device_id updC5W.register_name = some (rvOf updC5W)
      ∧ updC5W.device_id = deviceW) :=
  ⟨by decide,
    claim_C5_store_write_before_emit deviceW readC5W [cfgC5W] storeEmptyW 3 1 updC5W (by decide)⟩

theorem pollTick_store_preserve (d : String)
    (read : RegisterConfig → Except ReadError (List UWord))
    (regs : List RegisterConfig) (st : Store) (now : ℕ) (d2 n : String)
    (h : ∀ reg ∈ regs, reg.name ≠ n) :
    (pollTick d read regs st now).1 d2 n = st d2 n := by
  induction regs generalizing st with
  | nil => rfl
  | cons reg rest ih =>
    cases hr : read reg with
    | error e =>
      simp only [pollTick, pollStep, hr]
      exact ih st fun r hm => h r (List.mem_cons_of_mem _ hm)
    | ok raw =>
      simp only [pollTick, pollStep, hr]
      rw [ih _ fun r hm => h r (List.mem_cons_of_mem _ hm)]
      have hne : reg.name ≠ n := h reg (List.mem_cons_self _ _)
      have hcond : ¬(d2 = d ∧ n = reg.name) := fun hc => hne hc.2.symm
      simp only [Store.insert]
      rw [if_neg hcond]

/-- Claim C6.  Within one poll tick, a failing register read is
recorded and iteration continues: every failing register contributes a
recorded error event, and — with the per-device register names unique,
as the data model of the spec requires — every succeeding register still
gets its decoded value written into the Store.  `pollTick` returns
normally for every read oracle, so no register-level error escapes the
tick. -/
theorem claim_C6_register_isolation (d : String)
    (read : RegisterConfig → Except ReadError (List UWord))
    (regs : List RegisterConfig) (st : Store) (now : ℕ)
    (hnodup : (regs.map RegisterConfig.name).Nodup) :
    (∀ reg e, reg ∈ regs → read reg = Except.error e →
      Event.readError reg.name e ∈ (pollTick d read regs st now).2)
    ∧ (∀ reg raw, reg ∈ regs → read reg = Except.ok raw →
      (pollTick d read regs st now).1 d reg.name
        = some { name := reg.name, raw := raw, value := convert_value raw reg
                 unit := reg.unit, timestamp := now }) := by
  induction regs generalizing st with
  | nil =>
    exact ⟨fun reg e hm => absurd hm (List.not_mem_nil reg),
      fun reg raw hm => absurd hm (List.not_mem_nil reg)⟩
  | cons reg0 rest ih =>
    simp only [List.map_cons, List.nodup_cons] at hnodup
    obtain ⟨hn0, hnr⟩ := hnodup
    constructor
    · intro reg e hm hre
      rcases List.mem_cons.mp hm with rfl | hm2
      · simp [pollTick, pollStep, hre]
      · cases hr0 : read reg0 <;> simp only [pollTick, pollStep, hr0]
        · exact List.mem_cons_of_mem _ ((ih _ hnr).1 reg e hm2 hre)
        · exact List.mem_cons_of_mem _
            (List.mem_cons_of_mem _ ((ih _ hnr).1 reg e hm2 hre))
    · intro reg raw hm hra
      rcases List.mem_cons.mp hm with rfl | hm2
      · simp only [pollTick, pollStep, hra]
        rw [pollTick_store_preserve]
        · simp [Store.insert]
        · intro r hr2 hcontra
          exact hn0 (hcontra ▸ List.mem_map_of_mem RegisterConfig.name hr2)
      · cases hr0 : read reg0 <;> simp only [pollTick, pollStep, hr0] <;>
          exact (ih _ hnr).2 reg raw hm2 hra

/-- Register fixtures for the claim C6 witness: `bad` fails to read,
`good` succeeds. -/
def cfgC6A : RegisterConfig :=
  { name := "bad", address := 0, register_type := RegisterType.Holding, count := 1
    data_type := DataType.U16, unit := none, scale := none, offset := none }

def cfgC6B : RegisterConfig :=
  { name := "good", address := 1, register_type := RegisterType.Holding, count := 1
    data_type := DataType.U16, unit := none, scale := none, offset := none }

/-- Read oracle fixture for the claim C6 witness. -/
def readC6W : RegisterConfig → Except ReadError (List UWord) :=
  fun reg =>
    if reg.name = "bad" then Except.error (ReadError.modbus ModbusError.transportErr)
    else Except.ok [9]

theorem claim_C6_witness :
    (([cfgC6A, cfgC6B].map RegisterConfig.name).Nodup)
    ∧ Event.readError cfgC6A.name (ReadError.modbus ModbusError.transportErr)
        ∈ (pollTick deviceW readC6W [cfgC6A, cfgC6B] storeEmptyW 5).2
    ∧ (pollTick deviceW readC6W [cfgC6A, cfgC6B] storeEmptyW 5).1 deviceW cfgC6B.name
        = some { name := "good", raw := [9], value := convert_value [9] cfgC6B
                 unit := none, timestamp := 5 } := by
  have h := claim_C6_register_isolation deviceW readC6W [cfgC6A, cfgC6B] storeEmptyW 5 (by decide)
  exact ⟨by decide,
    h.1 cfgC6A (ReadError.modbus ModbusError.transportErr) (List.mem_cons_self _ _) rfl,
    h.2 cfgC6B [9] (List.mem_cons_of_mem _ (List.mem_cons_self _ _)) rfl⟩

end RustBridge
